import Mathlib

/-
Verification of the MyTasks task-management application
(source: src/app/(tabs)/index.tsx of vkprogrammer-001/MyTasks).

The component keeps three pieces of state: the task list `tasks`, the
new-task input buffer `newTask`, and the shared edit buffer `editingText`.
Every mutation handler (addTask, toggleEditMode, updateTaskText,
updateTaskPriority, toggleTask, deleteTask) produces a new task list from
the old one; the gateway calls (AsyncStorage persistence and expo
notifications) are fire-and-forget side effects that never feed back into
the in-memory list, so the list-level behaviour is a pure function of the
previous state and of the values the environment supplies (the
Date.now() timestamp used as the id and the scheduling result).
Those environment-supplied values appear here as explicit parameters.
-/

namespace MyTasks

/-- Whitespace test used by JavaScript's String.prototype.trim: space,
tab, line feed, carriage return, vertical tab, form feed, no-break space
and the BOM (the further Unicode space separators are omitted; none of
the claims depends on them). -/
def jsWhitespace (c : Char) : Bool :=
  c == ' ' || c == '\t' || c == '\n' || c == '\r' || c == '\x0b' || c == '\x0c' ||
  c == ' ' || c == '﻿'

/-- JavaScript String.prototype.trim: drop leading and trailing whitespace. -/
def jsTrim (s : String) : String :=
  ⟨((s.data.dropWhile jsWhitespace).reverse.dropWhile jsWhitespace).reverse⟩

/-- The priority union type "low" | "medium" | "high" of the Task interface. -/
inductive Priority where
  | low
  | medium
  | high
deriving DecidableEq

/-- The Task interface of index.tsx.  The optional TypeScript fields
notificationId?: string and isEditing?: boolean are modelled as Option,
with none standing for the field being absent or undefined. -/
structure Task where
  id : String
  text : String
  completed : Bool
  notificationId : Option String
  priority : Priority
  isEditing : Option Bool
deriving DecidableEq

/-- JavaScript truthiness of an optional boolean field: undefined is falsy. -/
def jsTruthy : Option Bool → Bool
  | some b => b
  | none => false

/-- Models the expression "notificationId || undefined" in addTask:
null becomes undefined, and so does the falsy empty string. -/
def orUndefined : Option String → Option String
  | some s => if s = "" then none else some s
  | none => none

/-- addTask, list level: early return when the trimmed input is empty,
otherwise append a task built from Date.now().toString() (passed in as
newId), the trimmed text, completed false, the scheduling result coerced
by "|| undefined", and default priority "medium".  isEditing is not set
in the object literal, hence none. -/
def addTask (newTask : String) (newId : String) (schedResult : Option String)
    (tasks : List Task) : List Task :=
  if (jsTrim newTask).length = 0 then tasks
  else
    tasks ++ [{ id := newId, text := jsTrim newTask, completed := false,
                notificationId := orUndefined schedResult,
                priority := Priority.medium, isEditing := none }]

/-- Per-element body of toggleEditMode: the addressed task gets the
JavaScript negation of its isEditing field, every other task is forced
to false. -/
def toggleEditFun (id : String) (t : Task) : Task :=
  { t with isEditing := some (if t.id = id then !(jsTruthy t.isEditing) else false) }

/-- toggleEditMode, list level (the editingText assignment lives in applyOp). -/
def toggleEditMode (id : String) (tasks : List Task) : List Task :=
  tasks.map (toggleEditFun id)

/-- Per-element body of updateTaskText: the addressed task receives the
new text and isEditing := false, every other task is returned unchanged. -/
def updateTextFun (id : String) (newText : String) (t : Task) : Task :=
  if t.id = id then { t with text := newText, isEditing := some false } else t

/-- updateTaskText, list level: early return when the trimmed edit buffer
is empty, otherwise map updateTextFun with the trimmed buffer. -/
def updateTaskText (id : String) (editingText : String) (tasks : List Task) : List Task :=
  if (jsTrim editingText).length = 0 then tasks
  else tasks.map (updateTextFun id (jsTrim editingText))

/-- Per-element body of updateTaskPriority. -/
def setPriorityFun (id : String) (p : Priority) (t : Task) : Task :=
  if t.id = id then { t with priority := p } else t

/-- updateTaskPriority, list level. -/
def updateTaskPriority (id : String) (p : Priority) (tasks : List Task) : List Task :=
  tasks.map (setPriorityFun id p)

/-- Per-element body of toggleTask: the addressed task's completed flag is
negated; the notification cancellation is a gateway side effect that does
not touch the record, in particular notificationId is kept as it is. -/
def toggleFun (id : String) (t : Task) : Task :=
  if t.id = id then { t with completed := !t.completed } else t

/-- toggleTask, list level. -/
def toggleTask (id : String) (tasks : List Task) : List Task :=
  tasks.map (toggleFun id)

/-- deleteTask, list level: keep exactly the tasks whose id differs. -/
def deleteTask (id : String) (tasks : List Task) : List Task :=
  tasks.filter (fun t => t.id != id)

/-- The priorities array of the priority-cycle onPress handler. -/
def priorities : List Priority :=
  [Priority.low, Priority.medium, Priority.high]

/-- The priority-cycle onPress handler:
priorities[(priorities.indexOf(current) + 1) % priorities.length].
The JavaScript index is always in range because every Priority value
occurs in the array, so the getD default is never used. -/
def nextPriority (p : Priority) : Priority :=
  priorities.getD ((priorities.findIdx (fun q => decide (q = p)) + 1) % priorities.length)
    Priority.low

/-- The component state: the task list plus the two text input buffers. -/
structure AppState where
  tasks : List Task
  newTask : String
  editingText : String
deriving DecidableEq

/-- The user intents the presentation layer can dispatch, with the
environment-supplied values (the Date.now id and the scheduling result)
attached to the add intent. -/
inductive Op where
  | typeNewTask (v : String)
  | submitAdd (newId : String) (schedResult : Option String)
  | startEdit (id : String) (initialText : String)
  | typeEditingText (v : String)
  | commitEdit (id : String)
  | setPriority (id : String) (p : Priority)
  | toggleComplete (id : String)
  | remove (id : String)

/-- One step of the component: each intent runs the corresponding handler.
submitAdd and commitEdit reproduce the handlers' early returns, which skip
the buffer reset as well as the list update. -/
def applyOp (s : AppState) : Op → AppState
  | Op.typeNewTask v => { s with newTask := v }
  | Op.submitAdd newId sched =>
      if (jsTrim s.newTask).length = 0 then s
      else { s with tasks := addTask s.newTask newId sched s.tasks, newTask := "" }
  | Op.startEdit id initialText =>
      { s with tasks := toggleEditMode id s.tasks, editingText := initialText }
  | Op.typeEditingText v => { s with editingText := v }
  | Op.commitEdit id =>
      if (jsTrim s.editingText).length = 0 then s
      else { s with tasks := updateTaskText id s.editingText s.tasks, editingText := "" }
  | Op.setPriority id p => { s with tasks := updateTaskPriority id p s.tasks }
  | Op.toggleComplete id => { s with tasks := toggleTask id s.tasks }
  | Op.remove id => { s with tasks := deleteTask id s.tasks }

/-- Run a sequence of user intents. -/
def applyOps (s : AppState) (ops : List Op) : AppState :=
  ops.foldl applyOp s

/-- The ids of the tasks in the collection, in order. -/
def taskIds (tasks : List Task) : List String :=
  tasks.map Task.id

/-- Number of tasks whose isEditing flag is the boolean true. -/
def editingCount (tasks : List Task) : Nat :=
  tasks.countP (fun t => decide (t.isEditing = some true))

/-- Every submitAdd in the sequence supplies an id that is not already in
the collection at the moment the add runs (this is what the spec's
"freshly generated unique id" promises of Date.now). -/
def freshAt (s : AppState) : Op → Bool
  | Op.submitAdd newId _ => !(taskIds s.tasks).contains newId
  | _ => true

/-- freshAdds extends freshAt along a whole sequence, each add being
checked against the collection as it is when that add runs. -/
def freshAdds (s : AppState) : List Op → Bool
  | [] => true
  | op :: ops => freshAt s op && freshAdds (applyOp s op) ops

/-
Persistence blob format.  saveTasks writes JSON.stringify(tasks) under the
fixed key "tasks" and loadTasks reads it back with JSON.parse.  Since
JSON.parse inverts JSON.stringify on the value trees the serializer can
emit, the blob is modelled as the JSON value tree itself.  JSON.stringify
emits the object fields in insertion order (id, text, completed,
notificationId, priority — the order of the literal in addTask — plus
isEditing once a handler has set it) and drops fields that are undefined,
which is how absent notificationId and isEditing disappear from the blob.
-/

/-- JSON value trees, restricted to the constructors the blob uses. -/
inductive Json where
  | str (s : String)
  | bool (b : Bool)
  | arr (xs : List Json)
  | obj (fields : List (String × Json))

/-- Encoding of the priority union values in the blob. -/
def priorityToString : Priority → String
  | Priority.low => "low"
  | Priority.medium => "medium"
  | Priority.high => "high"

/-- Reading a priority string back from the blob. -/
def priorityOfString : String → Option Priority
  | "low" => some Priority.low
  | "medium" => some Priority.medium
  | "high" => some Priority.high
  | _ => none

/-- Serialize one task the way JSON.stringify serializes the record:
fields in insertion order, undefined optional fields dropped. -/
def taskToJson (t : Task) : Json :=
  Json.obj
    ([("id", Json.str t.id), ("text", Json.str t.text),
      ("completed", Json.bool t.completed)] ++
     (match t.notificationId with
      | some n => [("notificationId", Json.str n)]
      | none => []) ++
     [("priority", Json.str (priorityToString t.priority))] ++
     (match t.isEditing with
      | some b => [("isEditing", Json.bool b)]
      | none => []))

/-- Read a string field of a parsed object; none when absent or not a string. -/
def lookupStr (fields : List (String × Json)) (k : String) : Option String :=
  match fields.lookup k with
  | some (Json.str v) => some v
  | _ => none

/-- Read a boolean field of a parsed object; none when absent or not a boolean. -/
def lookupBool (fields : List (String × Json)) (k : String) : Option Bool :=
  match fields.lookup k with
  | some (Json.bool v) => some v
  | _ => none

/-- Read one task record out of the parsed blob (the identification of the
untyped JSON.parse result with the Task shape that loadTasks performs by
casting). -/
def taskOfJson : Json → Option Task
  | Json.obj fields =>
      match lookupStr fields "id", lookupStr fields "text",
            lookupBool fields "completed",
            (lookupStr fields "priority").bind priorityOfString with
      | some id, some text, some completed, some p =>
          some { id := id, text := text, completed := completed,
                 notificationId := lookupStr fields "notificationId",
                 priority := p,
                 isEditing := lookupBool fields "isEditing" }
      | _, _, _, _ => none
  | _ => none

/-- The whole blob: the task array, in order. -/
def tasksToJson (tasks : List Task) : Json :=
  Json.arr (tasks.map taskToJson)

/-- Parse a list of record trees, failing when any record fails. -/
def tasksOfJsonList : List Json → Option (List Task)
  | [] => some []
  | j :: js =>
      match taskOfJson j, tasksOfJsonList js with
      | some t, some ts => some (t :: ts)
      | _, _ => none

/-- Parse the whole blob back into a task list. -/
def tasksOfJson : Json → Option (List Task)
  | Json.arr xs => tasksOfJsonList xs
  | _ => none

/-
Theorems.
-/

/-- Helper: a map whose body fixes every element of the list is the identity. -/
theorem map_fixes {α : Type} {f : α → α} (l : List α) (h : ∀ a ∈ l, f a = a) :
    l.map f = l :=
  List.map_congr_left h ▸ List.map_id l

/-- C7: the priority cycle follows the fixed order low → medium → high →
low, and three applications of the cycle return every starting priority to
itself. -/
theorem priority_cycle_order :
    nextPriority Priority.low = Priority.medium ∧
    nextPriority Priority.medium = Priority.high ∧
    nextPriority Priority.high = Priority.low ∧
    ∀ p : Priority, nextPriority (nextPriority (nextPriority p)) = p := by
  refine ⟨rfl, rfl, rfl, ?_⟩
  intro p
  cases p <;> rfl

/-- C1: for input whose trimmed form is non-empty, addTask appends exactly
one task at the end of the collection — the existing tasks are unchanged
and in place — and the new task carries the trimmed text, completed =
false and priority = medium. -/
theorem add_appends_new_task (tasks : List Task) (text newId : String)
    (sched : Option String) (h : (jsTrim text).length ≠ 0) :
    addTask text newId sched tasks =
      tasks ++ [{ id := newId, text := jsTrim text, completed := false,
                  notificationId := orUndefined sched,
                  priority := Priority.medium, isEditing := none }] ∧
    (addTask text newId sched tasks).length = tasks.length + 1 := by
  constructor
  · simp [addTask, h]
  · simp [addTask, h]

theorem add_appends_new_task_witness :
    addTask " milk " "1" none [] =
      [] ++ [{ id := "1", text := jsTrim " milk ", completed := false,
               notificationId := orUndefined none,
               priority := Priority.medium, isEditing := none }] ∧
    (addTask " milk " "1" none []).length = List.length ([] : List Task) + 1 :=
  add_appends_new_task [] " milk " "1" none (by decide)

/-- C3: input that is empty after trimming makes both addTask and
updateTaskText leave the collection unchanged. -/
theorem empty_input_noop (tasks : List Task) (text newId id : String)
    (sched : Option String) (h : (jsTrim text).length = 0) :
    addTask text newId sched tasks = tasks ∧
    updateTaskText id text tasks = tasks := by
  constructor
  · simp [addTask, h]
  · simp [updateTaskText, h]

theorem empty_input_noop_witness :
    addTask "   " "9" none
        [{ id := "1", text := "a", completed := false, notificationId := none,
           priority := Priority.medium, isEditing := none }] =
      [{ id := "1", text := "a", completed := false, notificationId := none,
         priority := Priority.medium, isEditing := none }] ∧
    updateTaskText "1" "   "
        [{ id := "1", text := "a", completed := false, notificationId := none,
           priority := Priority.medium, isEditing := none }] =
      [{ id := "1", text := "a", completed := false, notificationId := none,
         priority := Priority.medium, isEditing := none }] :=
  empty_input_noop _ "   " "9" "1" none (by decide)

/-- Helper: toggling one task's completed flag twice restores the record. -/
theorem toggleFun_involutive (id : String) (t : Task) :
    toggleFun id (toggleFun id t) = t := by
  obtain ⟨i, x, c, n, p, e⟩ := t
  by_cases h : i = id <;> simp [toggleFun, h]

/-- C4: for an id present in the collection, applying toggleTask twice
with that id restores the collection, in particular the addressed task's
completed flag returns to its original value (the notification
cancellation is a gateway side effect outside the state and is not
reversed). -/
theorem toggle_twice_restores (tasks : List Task) (id : String)
    (_h : ∃ t ∈ tasks, t.id = id) :
    toggleTask id (toggleTask id tasks) = tasks := by
  unfold toggleTask
  rw [List.map_map]
  exact map_fixes tasks (fun t _ => toggleFun_involutive id t)

/-- C2: the code generates ids with Date.now().toString(), so two add
operations that run in the same millisecond receive the same timestamp
string and the collection ends with two tasks sharing an id — evaluated
here with both adds receiving the timestamp 1700000000000. -/
theorem same_millisecond_adds_share_id :
    taskIds (addTask "B" "1700000000000" none
        (addTask "A" "1700000000000" none [])) =
      ["1700000000000", "1700000000000"] ∧
    ¬ (taskIds (addTask "B" "1700000000000" none
        (addTask "A" "1700000000000" none []))).Nodup := by
  decide

/-- C5: when the collection satisfies the data-model invariant that ids
are unique, removing a present id deletes exactly the task carrying it —
the other tasks stay unchanged and in order and the length drops by
exactly one — and removing an absent id leaves the collection unchanged. -/
theorem remove_exactly_one (tasks : List Task) (id : String)
    (hnd : (taskIds tasks).Nodup) :
    ((∃ t ∈ tasks, t.id = id) →
       ∃ l₁ t l₂, tasks = l₁ ++ t :: l₂ ∧ t.id = id ∧
         deleteTask id tasks = l₁ ++ l₂ ∧
         (deleteTask id tasks).length + 1 = tasks.length) ∧
    ((∀ t ∈ tasks, t.id ≠ id) → deleteTask id tasks = tasks) := by
  constructor
  · rintro ⟨t, ht, hti⟩
    obtain ⟨l₁, l₂, rfl⟩ := List.append_of_mem ht
    have hothers : ∀ u ∈ l₁ ++ l₂, u.id ≠ id := by
      have h1 : (taskIds (l₁ ++ t :: l₂)).Nodup := hnd
      rw [taskIds] at h1
      simp only [List.map_append, List.map_cons] at h1
      rw [List.nodup_middle, List.nodup_cons] at h1
      intro u hu hue
      have hm : u.id ∈ (l₁ ++ l₂).map Task.id := List.mem_map_of_mem Task.id hu
      rw [List.map_append] at hm
      exact h1.1 (by rwa [hue, ← hti] at hm)
    have e₁ : List.filter (fun u => u.id != id) l₁ = l₁ :=
      List.filter_eq_self.mpr
        (fun u hu => by simpa using hothers u (List.mem_append_left l₂ hu))
    have e₂ : List.filter (fun u => u.id != id) l₂ = l₂ :=
      List.filter_eq_self.mpr
        (fun u hu => by simpa using hothers u (List.mem_append_right l₁ hu))
    have hdel : deleteTask id (l₁ ++ t :: l₂) = l₁ ++ l₂ := by
      unfold deleteTask
      rw [List.filter_append, List.filter_cons]
      have hpt : (t.id != id) = false := by simp [hti]
      rw [hpt]
      simp only [Bool.false_eq_true, if_false]
      rw [e₁, e₂]
    exact ⟨l₁, t, l₂, rfl, hti, hdel, by rw [hdel]; simp; omega⟩
  · intro h
    unfold deleteTask
    exact List.filter_eq_self.mpr (fun u hu => by simpa using h u hu)

theorem remove_exactly_one_witness :
    ((∃ t ∈ [({ id := "1", text := "a", completed := false, notificationId := none,
                priority := Priority.medium, isEditing := none } : Task),
             { id := "2", text := "b", completed := true, notificationId := none,
               priority := Priority.high, isEditing := none }], t.id = "1") →
       ∃ l₁ t l₂,
         [({ id := "1", text := "a", completed := false, notificationId := none,
             priority := Priority.medium, isEditing := none } : Task),
          { id := "2", text := "b", completed := true, notificationId := none,
            priority := Priority.high, isEditing := none }] = l₁ ++ t :: l₂ ∧
         t.id = "1" ∧
         deleteTask "1"
             [{ id := "1", text := "a", completed := false, notificationId := none,
                priority := Priority.medium, isEditing := none },
              { id := "2", text := "b", completed := true, notificationId := none,
                priority := Priority.high, isEditing := none }] = l₁ ++ l₂ ∧
         (deleteTask "1"
             [{ id := "1", text := "a", completed := false, notificationId := none,
                priority := Priority.medium, isEditing := none },
              { id := "2", text := "b", completed := true, notificationId := none,
                priority := Priority.high, isEditing := none }]).length + 1 =
           (([{ id := "1", text := "a", completed := false, notificationId := none,
                priority := Priority.medium, isEditing := none },
              { id := "2", text := "b", completed := true, notificationId := none,
                priority := Priority.high, isEditing := none }] : List Task)).length) ∧
    ((∀ t ∈ [({ id := "1", text := "a", completed := false, notificationId := none,
                priority := Priority.medium, isEditing := none } : Task),
             { id := "2", text := "b", completed := true, notificationId := none,
               priority := Priority.high, isEditing := none }], t.id ≠ "1") →
       deleteTask "1"
           [{ id := "1", text := "a", completed := false, notificationId := none,
              priority := Priority.medium, isEditing := none },
            { id := "2", text := "b", completed := true, notificationId := none,
              priority := Priority.high, isEditing := none }] =
         [{ id := "1", text := "a", completed := false, notificationId := none,
            priority := Priority.medium, isEditing := none },
          { id := "2", text := "b", completed := true, notificationId := none,
            priority := Priority.high, isEditing := none }]) :=
  remove_exactly_one _ "1" (by decide)

/-- C9: a task transitioning false → true under toggleTask while holding a
reminder handle keeps every field other than completed: the task at the
same position of the result has the original id, text, priority, editing
flag, and — in particular — the original, uncleared notificationId. -/
theorem toggle_keeps_other_fields (tasks : List Task) (id : String) (i : Nat)
    (t : Task) (hi : tasks[i]? = some t) (hid : t.id = id)
    (hc : t.completed = false) (_hn : t.notificationId.isSome = true) :
    (toggleTask id tasks)[i]? =
      some { id := t.id, text := t.text, completed := true,
             notificationId := t.notificationId, priority := t.priority,
             isEditing := t.isEditing } := by
  unfold toggleTask
  rw [List.getElem?_map, hi]
  simp [toggleFun, hid, hc]

theorem toggle_keeps_other_fields_witness :
    (toggleTask "1"
        [{ id := "1", text := "buy", completed := false, notificationId := some "n1",
           priority := Priority.medium, isEditing := none }])[0]? =
      some { id := "1", text := "buy", completed := true,
             notificationId := some "n1", priority := Priority.medium,
             isEditing := none } :=
  toggle_keeps_other_fields _ "1" 0
    { id := "1", text := "buy", completed := false, notificationId := some "n1",
      priority := Priority.medium, isEditing := none } rfl rfl rfl rfl

/-- C10: an id that no task in the collection carries makes toggleTask,
updateTaskPriority and updateTaskText all leave the collection unchanged:
each of them maps over the collection and modifies only matching tasks. -/
theorem absent_id_noop (tasks : List Task) (id : String) (p : Priority)
    (newText : String) (h : ∀ t ∈ tasks, t.id ≠ id) :
    toggleTask id tasks = tasks ∧ updateTaskPriority id p tasks = tasks ∧
    updateTaskText id newText tasks = tasks := by
  refine ⟨?_, ?_, ?_⟩
  · unfold toggleTask
    exact map_fixes tasks (fun t ht => by simp [toggleFun, h t ht])
  · unfold updateTaskPriority
    exact map_fixes tasks (fun t ht => by simp [setPriorityFun, h t ht])
  · unfold updateTaskText
    split
    · rfl
    · exact map_fixes tasks (fun t ht => by simp [updateTextFun, h t ht])

theorem absent_id_noop_witness :
    toggleTask "9"
        [{ id := "1", text := "a", completed := false, notificationId := none,
           priority := Priority.medium, isEditing := none }] =
      [{ id := "1", text := "a", completed := false, notificationId := none,
         priority := Priority.medium, isEditing := none }] ∧
    updateTaskPriority "9" Priority.high
        [{ id := "1", text := "a", completed := false, notificationId := none,
           priority := Priority.medium, isEditing := none }] =
      [{ id := "1", text := "a", completed := false, notificationId := none,
         priority := Priority.medium, isEditing := none }] ∧
    updateTaskText "9" "new"
        [{ id := "1", text := "a", completed := false, notificationId := none,
           priority := Priority.medium, isEditing := none }] =
      [{ id := "1", text := "a", completed := false, notificationId := none,
         priority := Priority.medium, isEditing := none }] :=
  absent_id_noop _ "9" Priority.high "new" (by decide)

theorem toggle_twice_restores_witness :
    toggleTask "1" (toggleTask "1"
        [{ id := "1", text := "a", completed := false, notificationId := some "n",
           priority := Priority.medium, isEditing := none }]) =
      [{ id := "1", text := "a", completed := false, notificationId := some "n",
         priority := Priority.medium, isEditing := none }] :=
  toggle_twice_restores _ "1" (by decide)

/-- Helper: serializing one task and reading it back restores the record,
including the dropped-when-absent optional fields. -/
theorem taskOfJson_taskToJson (t : Task) : taskOfJson (taskToJson t) = some t := by
  obtain ⟨i, x, c, n, p, e⟩ := t
  cases n <;> cases e <;> cases p <;> rfl

/-- C8: serializing a collection into the persistence blob and parsing the
blob back yields a collection equal to the original — in fact equal on
every field, editing flags included, so in particular equal ignoring the
transient editing flags. -/
theorem blob_roundtrip (tasks : List Task) :
    tasksOfJson (tasksToJson tasks) = some tasks := by
  induction tasks with
  | nil => rfl
  | cons t ts ih =>
    have ih' : tasksOfJsonList (List.map taskToJson ts) = some ts := ih
    show tasksOfJsonList (taskToJson t :: List.map taskToJson ts) = some (t :: ts)
    rw [tasksOfJsonList, taskOfJson_taskToJson, ih']

/-- Helper: toggleEditFun does not change the id. -/
theorem toggleEditFun_id (id : String) (t : Task) :
    (toggleEditFun id t).id = t.id := rfl

/-- Helper: updateTextFun does not change the id. -/
theorem updateTextFun_id (id newText : String) (t : Task) :
    (updateTextFun id newText t).id = t.id := by
  unfold updateTextFun
  split <;> rfl

/-- Helper: setPriorityFun does not change the id. -/
theorem setPriorityFun_id (id : String) (p : Priority) (t : Task) :
    (setPriorityFun id p t).id = t.id := by
  unfold setPriorityFun
  split <;> rfl

/-- Helper: toggleFun does not change the id. -/
theorem toggleFun_id (id : String) (t : Task) :
    (toggleFun id t).id = t.id := by
  unfold toggleFun
  split <;> rfl

/-- Helper: a map whose body keeps every id keeps the id list. -/
theorem taskIds_map {f : Task → Task} (hf : ∀ t, (f t).id = t.id)
    (ts : List Task) : taskIds (ts.map f) = taskIds ts := by
  unfold taskIds
  rw [List.map_map]
  exact List.map_congr_left (fun t _ => hf t)

/-- Helper: toggleEditMode keeps the id list. -/
theorem taskIds_toggleEditMode (id : String) (ts : List Task) :
    taskIds (toggleEditMode id ts) = taskIds ts :=
  taskIds_map (toggleEditFun_id id) ts

/-- Helper: updateTaskText keeps the id list. -/
theorem taskIds_updateTaskText (id newText : String) (ts : List Task) :
    taskIds (updateTaskText id newText ts) = taskIds ts := by
  unfold updateTaskText
  split
  · rfl
  · exact taskIds_map (updateTextFun_id id _) ts

/-- Helper: updateTaskPriority keeps the id list. -/
theorem taskIds_updateTaskPriority (id : String) (p : Priority) (ts : List Task) :
    taskIds (updateTaskPriority id p ts) = taskIds ts :=
  taskIds_map (setPriorityFun_id id p) ts

/-- Helper: toggleTask keeps the id list. -/
theorem taskIds_toggleTask (id : String) (ts : List Task) :
    taskIds (toggleTask id ts) = taskIds ts :=
  taskIds_map (toggleFun_id id) ts

/-- Helper: the id list of a deleteTask result is a sublist of the original. -/
theorem taskIds_deleteTask_sublist (id : String) (ts : List Task) :
    (taskIds (deleteTask id ts)).Sublist (taskIds ts) :=
  (List.filter_sublist ts).map Task.id

/-- Helper: after toggleEditMode only tasks carrying the addressed id can
be editing, so the editing count is bounded by the number of matches. -/
theorem editingCount_toggleEditMode_le (id : String) (ts : List Task) :
    editingCount (toggleEditMode id ts) ≤
      ts.countP (fun t => decide (t.id = id)) := by
  unfold toggleEditMode editingCount
  rw [List.countP_map]
  apply List.countP_mono_left
  intro t _ h
  simp only [Function.comp, toggleEditFun, decide_eq_true_eq] at h
  by_cases hid : t.id = id
  · simp [hid]
  · rw [if_neg hid] at h
    simp at h

/-- Helper: in a collection with unique ids at most one task matches a
given id. -/
theorem countP_id_le_one (id : String) (ts : List Task)
    (hnd : (taskIds ts).Nodup) :
    ts.countP (fun t => decide (t.id = id)) ≤ 1 := by
  induction ts with
  | nil => simp
  | cons hd tl ih =>
    rw [taskIds, List.map_cons, List.nodup_cons] at hnd
    rw [List.countP_cons]
    by_cases hh : hd.id = id
    · have h0 : tl.countP (fun t => decide (t.id = id)) = 0 := by
        rw [List.countP_eq_zero]
        intro u hu hdec
        have hue : u.id = id := of_decide_eq_true hdec
        exact hnd.1 (hh ▸ hue ▸ List.mem_map_of_mem Task.id hu)
      rw [h0]
      simp [hh]
    · have := ih hnd.2
      rw [decide_eq_false hh]
      simpa using this

/-- Helper: committing an edit can only turn editing flags off. -/
theorem editingCount_updateTaskText_le (id newText : String) (ts : List Task) :
    editingCount (updateTaskText id newText ts) ≤ editingCount ts := by
  unfold updateTaskText
  split
  · exact le_refl _
  · unfold editingCount
    rw [List.countP_map]
    apply List.countP_mono_left
    intro t _ h
    simp only [Function.comp, updateTextFun] at h
    split at h
    · simp at h
    · exact h

/-- Helper: updateTaskPriority does not touch editing flags. -/
theorem editingCount_updateTaskPriority (id : String) (p : Priority)
    (ts : List Task) :
    editingCount (updateTaskPriority id p ts) = editingCount ts := by
  unfold updateTaskPriority editingCount
  rw [List.countP_map]
  apply List.countP_congr
  intro t _
  unfold Function.comp setPriorityFun
  split <;> rfl

/-- Helper: toggleTask does not touch editing flags. -/
theorem editingCount_toggleTask (id : String) (ts : List Task) :
    editingCount (toggleTask id ts) = editingCount ts := by
  unfold toggleTask editingCount
  rw [List.countP_map]
  apply List.countP_congr
  intro t _
  unfold Function.comp toggleFun
  split <;> rfl

/-- Helper: deleting can only lower the editing count. -/
theorem editingCount_deleteTask_le (id : String) (ts : List Task) :
    editingCount (deleteTask id ts) ≤ editingCount ts := by
  unfold deleteTask editingCount
  exact (List.filter_sublist ts).countP_le _

/-- Helper: a freshly added task is not editing, so addTask keeps the
editing count. -/
theorem editingCount_addTask (text newId : String) (sched : Option String)
    (ts : List Task) :
    editingCount (addTask text newId sched ts) = editingCount ts := by
  unfold addTask
  split
  · rfl
  · unfold editingCount
    rw [List.countP_append]
    simp [List.countP_cons]

/-- Helper: one step preserves uniqueness of ids (given a fresh id on an
add) and keeps the editing count at most one. -/
theorem applyOp_editing_inv (s : AppState) (op : Op)
    (hnd : (taskIds s.tasks).Nodup) (hec : editingCount s.tasks ≤ 1)
    (hfresh : freshAt s op = true) :
    (taskIds (applyOp s op).tasks).Nodup ∧
      editingCount (applyOp s op).tasks ≤ 1 := by
  cases op with
  | typeNewTask v => exact ⟨hnd, hec⟩
  | typeEditingText v => exact ⟨hnd, hec⟩
  | submitAdd newId sched =>
    simp only [applyOp]
    split
    · exact ⟨hnd, hec⟩
    · rename_i hne
      constructor
      · unfold addTask
        rw [if_neg hne]
        unfold taskIds
        rw [List.map_append, List.nodup_append]
        refine ⟨hnd, List.nodup_singleton _, ?_⟩
        intro a ha hb
        have hmem : newId ∉ taskIds s.tasks := by
          simpa [freshAt] using hfresh
        simp only [List.map_cons, List.map_nil, List.mem_singleton] at hb
        exact hmem (hb ▸ ha)
      · rw [editingCount_addTask]
        exact hec
  | startEdit id it =>
    refine ⟨?_, ?_⟩
    · rw [show (applyOp s (Op.startEdit id it)).tasks = toggleEditMode id s.tasks
          from rfl, taskIds_toggleEditMode]
      exact hnd
    · calc editingCount (toggleEditMode id s.tasks) ≤
            s.tasks.countP (fun t => decide (t.id = id)) :=
              editingCount_toggleEditMode_le id s.tasks
        _ ≤ 1 := countP_id_le_one id s.tasks hnd
  | commitEdit id =>
    simp only [applyOp]
    split
    · exact ⟨hnd, hec⟩
    · exact ⟨by rw [taskIds_updateTaskText]; exact hnd,
             le_trans (editingCount_updateTaskText_le id s.editingText s.tasks) hec⟩
  | setPriority id p =>
    refine ⟨?_, ?_⟩
    · rw [show (applyOp s (Op.setPriority id p)).tasks =
          updateTaskPriority id p s.tasks from rfl, taskIds_updateTaskPriority]
      exact hnd
    · rw [show (applyOp s (Op.setPriority id p)).tasks =
          updateTaskPriority id p s.tasks from rfl, editingCount_updateTaskPriority]
      exact hec
  | toggleComplete id =>
    refine ⟨?_, ?_⟩
    · rw [show (applyOp s (Op.toggleComplete id)).tasks =
          toggleTask id s.tasks from rfl, taskIds_toggleTask]
      exact hnd
    · rw [show (applyOp s (Op.toggleComplete id)).tasks =
          toggleTask id s.tasks from rfl, editingCount_toggleTask]
      exact hec
  | remove id =>
    exact ⟨hnd.sublist (taskIds_deleteTask_sublist id s.tasks),
           le_trans (editingCount_deleteTask_le id s.tasks) hec⟩

/-- Helper: the one-step invariant extended to a whole intent sequence. -/
theorem applyOps_editing_inv (ops : List Op) (s : AppState)
    (hnd : (taskIds s.tasks).Nodup) (hec : editingCount s.tasks ≤ 1)
    (hfresh : freshAdds s ops = true) :
    (taskIds (applyOps s ops).tasks).Nodup ∧
      editingCount (applyOps s ops).tasks ≤ 1 := by
  induction ops generalizing s with
  | nil => exact ⟨hnd, hec⟩
  | cons op ops ih =>
    have hf : (freshAt s op && freshAdds (applyOp s op) ops) = true := hfresh
    rw [Bool.and_eq_true] at hf
    have hstep := applyOp_editing_inv s op hnd hec hf.1
    exact ih (applyOp s op) hstep.1 hstep.2 hf.2

/-- C6: starting from a state whose collection has no editing task (and
whose ids are unique), after any sequence of user intents in which every
add receives a fresh id — which is what the id generator is supposed to
provide — at most one task is in editing state. -/
theorem editing_exclusive (s : AppState) (ops : List Op)
    (hnd : (taskIds s.tasks).Nodup) (h0 : editingCount s.tasks = 0)
    (hfresh : freshAdds s ops = true) :
    editingCount (applyOps s ops).tasks ≤ 1 :=
  (applyOps_editing_inv ops s hnd (by omega) hfresh).2

theorem editing_exclusive_witness :
    editingCount (applyOps { tasks := [], newTask := "", editingText := "" }
        [Op.typeNewTask "A", Op.submitAdd "100" none, Op.typeNewTask "B",
         Op.submitAdd "101" none, Op.startEdit "100" "A",
         Op.startEdit "101" "B"]).tasks ≤ 1 :=
  editing_exclusive { tasks := [], newTask := "", editingText := "" }
    [Op.typeNewTask "A", Op.submitAdd "100" none, Op.typeNewTask "B",
     Op.submitAdd "101" none, Op.startEdit "100" "A", Op.startEdit "101" "B"]
    (by decide) (by decide) (by decide)

end MyTasks
